import Mathlib

/-!
Verification of the WS2812 PWM LED driver (`src/ws2812.c`).

The development shallowly embeds the driver's pure computational core:
the gamma/brightness table lookup (`gamma_`), the per-pixel nibble
encoder (`led_encode`), the frame construction performed by
`ws2812_write` and `clear_leds`, and the sequence of DMA-API calls made
by `issue_dma` and the completion callback `ws2812_callback`.
Machine integers are modelled as `Nat` with explicit `% 256`
truncations where the C code narrows to `unsigned char`; byte buffers
are `List Nat`; the DMA engine interaction is modelled as the list of
map/submit/unmap events the code emits, driven by booleans standing
for the success of `dma_map_single` and `dmaengine_prep_slave_single`.
-/

set_option maxRecDepth 10000

/-- `#define BYTES_PER_LED 12` (ws2812.c line 108). -/
def BYTES_PER_LED : Nat := 12

/-- `#define RESET_BYTES ((50 * 24) / 80)` (ws2812.c line 111):
number of bytes of 2.4MHz bits needed for the 50us reset condition. -/
def RESET_BYTES : Nat := (50 * 24) / 80

/-- The 256-entry gamma table `GammaE` from `gamma_` (ws2812.c lines 249-265). -/
def GammaE : List Nat := [
  0, 0, 0, 0, 0, 0, 0, 0, 0, 0, 0, 0, 0, 0, 0, 0,
  0, 0, 0, 0, 0, 0, 1, 1, 1, 1, 1, 1, 1, 2, 2, 2,
  2, 2, 2, 3, 3, 3, 3, 3, 4, 4, 4, 4, 5, 5, 5, 5,
  6, 6, 6, 7, 7, 7, 8, 8, 8, 9, 9, 9, 10, 10, 11, 11,
  11, 12, 12, 13, 13, 13, 14, 14, 15, 15, 16, 16, 17, 17, 18, 18,
  19, 19, 20, 21, 21, 22, 22, 23, 23, 24, 25, 25, 26, 27, 27, 28,
  29, 29, 30, 31, 31, 32, 33, 34, 34, 35, 36, 37, 37, 38, 39, 40,
  40, 41, 42, 43, 44, 45, 46, 46, 47, 48, 49, 50, 51, 52, 53, 54,
  55, 56, 57, 58, 59, 60, 61, 62, 63, 64, 65, 66, 67, 68, 69, 70,
  71, 72, 73, 74, 76, 77, 78, 79, 80, 81, 83, 84, 85, 86, 88, 89,
  90, 91, 93, 94, 95, 96, 98, 99, 100, 102, 103, 104, 106, 107, 109, 110,
  111, 113, 114, 116, 117, 119, 120, 121, 123, 124, 126, 128, 129, 131, 132, 134,
  135, 137, 138, 140, 142, 143, 145, 146, 148, 150, 151, 153, 155, 157, 158, 160,
  162, 163, 165, 167, 169, 170, 172, 174, 176, 178, 179, 181, 183, 185, 187, 189,
  191, 193, 194, 196, 198, 200, 202, 204, 206, 208, 210, 212, 214, 216, 218, 220,
  222, 224, 227, 229, 231, 233, 235, 237, 239, 241, 244, 246, 248, 250, 252, 255]

/-- `unsigned char gamma_(unsigned char brightness, unsigned char val)`
(ws2812.c lines 246-268): `bright = (val * brightness) / 255; return GammaE[bright]`.
Both parameters are `unsigned char`, so callers always pass values below 256. -/
def gamma_ (brightness val : Nat) : Nat :=
  GammaE.getD (val * brightness / 255) 0

/-- The `switch(rearrange & 3)` of `led_encode` (ws2812.c lines 292-298):
maps a 2-bit group to one PWM output byte. -/
def encode2 (v : Nat) : Nat :=
  if v % 4 = 0 then 0x88
  else if v % 4 = 1 then 0x8e
  else if v % 4 = 2 then 0xe8
  else 0xee

/-- The 12-iteration loop of `led_encode` (ws2812.c lines 290-300):
emit `encode2` of the low 2 bits, then shift right by 2, `n` times. -/
def encodeGroups : Nat → Nat → List Nat
  | _, 0 => []
  | v, n + 1 => encode2 v :: encodeGroups (v / 4) n

/-- `led_encode(state, rgb, buf)` (ws2812.c lines 281-303) as the list of
12 bytes it appends at the cursor. Channel extraction `rgb >> 8`, `rgb`,
`rgb >> 16` each narrowed to `unsigned char` on entry to `gamma_`;
for every 32-bit word (signed or not) this equals `/ 2^k % 256` on its
unsigned value. -/
def led_encode (brightness rgb : Nat) : List Nat :=
  let red := gamma_ brightness (rgb / 256 % 256)
  let blu := gamma_ brightness (rgb % 256)
  let grn := gamma_ brightness (rgb / 65536 % 256)
  let rearrange := red + blu * 256 + grn * 65536
  encodeGroups rearrange 12

/-- The frame buffer contents produced by `ws2812_write` (ws2812.c lines
311-337): `num_leds = min(count/4, state->num_leds)` pixels are encoded
with `led_encode`, then `memset(p_buffer, 0x00, RESET_BYTES)` fills the
tail. `pixels` is the list of 32-bit words supplied by the caller. -/
def frame (brightness numLeds : Nat) (pixels : List Nat) : List Nat :=
  let accepted := min pixels.length numLeds
  (pixels.take accepted).flatMap (led_encode brightness) ++ List.replicate RESET_BYTES 0

/-- The buffer contents written by `clear_leds` (ws2812.c lines 218-230):
`num_leds * BYTES_PER_LED` bytes of `0x88` followed by `RESET_BYTES` zeros. -/
def clear_frame (numLeds : Nat) : List Nat :=
  List.replicate (numLeds * BYTES_PER_LED) 0x88 ++ List.replicate RESET_BYTES 0

/-- The DMA length passed by `clear_leds` to `issue_dma` (ws2812.c line 227). -/
def clear_dma_length (numLeds : Nat) : Nat :=
  numLeds * BYTES_PER_LED + RESET_BYTES

/-- The length `ws2812_callback` passes to `dma_unmap_single`
(ws2812.c line 178): `state->num_leds * BYTES_PER_LED`. -/
def ws2812_callback_unmap_length (numLeds : Nat) : Nat :=
  numLeds * BYTES_PER_LED

/-- One call into the kernel DMA API made by the driver. -/
inductive DmaEvent where
  | map (len : Nat)
  | submit (len : Nat)
  | unmap (len : Nat)
deriving DecidableEq

/-- `issue_dma(state, buffer, length)` (ws2812.c lines 187-215) as the
list of DMA-API calls it performs and its return value. `mapOk` stands
for `dma_map_single` producing a nonzero bus address, `prepOk` for
`dmaengine_prep_slave_single` returning a non-NULL descriptor. On a
NULL descriptor the function returns `-1` without any unmap call. -/
def issue_dma (length : Nat) (mapOk prepOk : Bool) : List DmaEvent × Int :=
  if mapOk = false then ([DmaEvent.map length], -1)
  else if prepOk = false then ([DmaEvent.map length], -1)
  else ([DmaEvent.map length, DmaEvent.submit length], 0)

/-- `ws2812_write(filp, buf, count, pos)` (ws2812.c lines 311-337):
returns `(retval, encoded frame if any, DMA events)`. `user i` is the
i-th 32-bit word of the caller's buffer; `copyOk` stands for
`copy_from_user` succeeding. On copy failure it returns `-EFAULT`
(-14) with nothing encoded and no DMA call; otherwise it encodes
`min(count/4, numLeds)` pixels, issues the DMA and returns `count`. -/
def ws2812_write (brightness numLeds count : Nat) (user : Nat → Nat)
    (copyOk mapOk prepOk : Bool) : Int × Option (List Nat) × List DmaEvent :=
  let accepted := min (count / 4) numLeds
  if copyOk then
    let pixels := (List.range accepted).map user
    let buf := frame brightness numLeds pixels
    ((count : Int), some buf, (issue_dma buf.length mapOk prepOk).1)
  else
    (-14, none, [])

/-! ## Helper lemmas -/

/-- `encode2` always produces one of the four PWM bytes. -/
lemma encode2_mem (v : Nat) :
    encode2 v = 0x88 ∨ encode2 v = 0x8e ∨ encode2 v = 0xe8 ∨ encode2 v = 0xee := by
  unfold encode2
  split_ifs <;> simp

/-- `encodeGroups v n` has length `n`. -/
lemma encodeGroups_length (v n : Nat) : (encodeGroups v n).length = n := by
  induction n generalizing v with
  | zero => rfl
  | succ n ih => simp [encodeGroups, ih]

/-- Every byte of `encodeGroups` is one of the four PWM bytes. -/
lemma encodeGroups_mem (v n : Nat) :
    ∀ x ∈ encodeGroups v n, x = 0x88 ∨ x = 0x8e ∨ x = 0xe8 ∨ x = 0xee := by
  induction n generalizing v with
  | zero => intro x hx; simp [encodeGroups] at hx
  | succ n ih =>
    intro x hx
    simp only [encodeGroups, List.mem_cons] at hx
    rcases hx with h | h
    · exact h ▸ encode2_mem v
    · exact ih _ x h

/-- `led_encode` emits exactly 12 bytes. -/
lemma led_encode_length (brightness rgb : Nat) :
    (led_encode brightness rgb).length = 12 := by
  unfold led_encode
  exact encodeGroups_length _ 12

/-- The encoded pixels of a list occupy `12 * length` bytes. -/
lemma flatMap_led_encode_length (brightness : Nat) (l : List Nat) :
    (l.flatMap (led_encode brightness)).length = 12 * l.length := by
  induction l with
  | nil => rfl
  | cons p l ih =>
    simp [List.flatMap_cons, led_encode_length, ih, Nat.mul_succ, Nat.add_comm]

/-- The length of the frame built by `ws2812_write`. -/
lemma frame_length (brightness numLeds : Nat) (pixels : List Nat) :
    (frame brightness numLeds pixels).length =
      min pixels.length numLeds * 12 + RESET_BYTES := by
  unfold frame
  rw [List.length_append, flatMap_led_encode_length, List.length_take,
    List.length_replicate]
  omega

/-- C1: one call to `led_encode` appends exactly 12 bytes, each one of
0x88, 0x8E, 0xE8, 0xEE, and advances the output cursor by 12: appending
its result to any buffer grows the buffer by exactly 12 bytes. -/
theorem led_encode_twelve_pwm_bytes (brightness rgb : Nat) :
    (led_encode brightness rgb).length = 12 ∧
    (∀ x ∈ led_encode brightness rgb,
      x = 0x88 ∨ x = 0x8e ∨ x = 0xe8 ∨ x = 0xee) ∧
    (∀ buf : List Nat, (buf ++ led_encode brightness rgb).length = buf.length + 12) := by
  refine ⟨led_encode_length brightness rgb, ?_, ?_⟩
  · unfold led_encode
    exact encodeGroups_mem _ 12
  · intro buf
    simp [led_encode_length]

/-- The trailing `RESET_BYTES` bytes of a frame are all zero. -/
lemma frame_drop (brightness numLeds : Nat) (pixels : List Nat) :
    (frame brightness numLeds pixels).drop (min pixels.length numLeds * 12) =
      List.replicate RESET_BYTES 0 := by
  unfold frame
  have h : ((pixels.take (min pixels.length numLeds)).flatMap
      (led_encode brightness)).length = min pixels.length numLeds * 12 := by
    rw [flatMap_led_encode_length, List.length_take]
    omega
  rw [← h, List.drop_left]

/-- Pixels beyond the first `numLeds` do not influence the frame. -/
lemma frame_take (brightness numLeds : Nat) (pixels : List Nat) :
    frame brightness numLeds pixels =
      frame brightness numLeds (pixels.take numLeds) := by
  have h : pixels.take (min pixels.length numLeds) =
      (pixels.take numLeds).take (min (pixels.take numLeds).length numLeds) := by
    rw [List.take_take, List.length_take]
    congr 1
    omega
  simp only [frame]
  rw [← h]

/-- C2: for a write supplying k pixel words, with k' = min(k, numLeds)
accepted, the DMA frame has exact length k' * 12 + RESET_BYTES and its
final RESET_BYTES bytes are all zero; oversupply truncates silently to
the first numLeds pixels (the frame equals the frame of the truncated
input), and zero pixels yield a frame of exactly RESET_BYTES zero bytes. -/
theorem frame_shape (brightness numLeds : Nat) (pixels : List Nat) :
    (frame brightness numLeds pixels).length =
      min pixels.length numLeds * 12 + RESET_BYTES ∧
    (frame brightness numLeds pixels).drop (min pixels.length numLeds * 12) =
      List.replicate RESET_BYTES 0 ∧
    frame brightness numLeds pixels =
      frame brightness numLeds (pixels.take numLeds) ∧
    frame brightness numLeds [] = List.replicate RESET_BYTES 0 := by
  refine ⟨frame_length brightness numLeds pixels,
    frame_drop brightness numLeds pixels,
    frame_take brightness numLeds pixels, ?_⟩
  unfold frame
  simp

/-- C3 counterexample: the reset region constant is not 40 bytes. -/
theorem reset_bytes_ne_forty : RESET_BYTES ≠ 40 := by decide

/-- C3 amended: the trailing reset-gap region is exactly 15 bytes:
`RESET_BYTES = (50 * 24) / 80 = 15` (50us at 2.4MHz is 120 bits, i.e.
15 bytes), and this same constant sizes the zero-filled tail and the
empty-frame DMA length. -/
theorem reset_bytes_fifteen :
    RESET_BYTES = 15 ∧ RESET_BYTES = 50 * 24 / 80 ∧
    (∀ brightness numLeds : Nat,
      (frame brightness numLeds []).length = 15) ∧
    clear_dma_length 0 = 15 := by
  refine ⟨by decide, by decide, ?_, by decide⟩
  intro brightness numLeds
  rw [frame_length]
  simp [RESET_BYTES]

/-- The first gamma-table entry is zero. -/
lemma gammaE_getD_zero : GammaE.getD 0 0 = 0 := by decide

/-- The gamma table has 256 entries. -/
lemma gammaE_length : GammaE.length = 256 := by decide

/-- C4: the gamma/brightness correction returns `GammaE[(c * b) / 255]`
with truncating division; brightness 255 yields the identity gamma curve
`GammaE[c]`, and brightness 0 yields 0 for every channel value. -/
theorem gamma_correct (b c : Nat) (_hb : b ≤ 255) (_hc : c ≤ 255) :
    gamma_ b c = GammaE.getD (c * b / 255) 0 ∧
    gamma_ 255 c = GammaE.getD c 0 ∧
    gamma_ 0 c = 0 := by
  refine ⟨rfl, ?_, ?_⟩
  · unfold gamma_
    rw [Nat.mul_div_cancel c (by norm_num : 0 < 255)]
  · unfold gamma_
    simpa using gammaE_getD_zero

/-- C4 witness at brightness 128 and channel 200. -/
theorem gamma_correct_witness :
    gamma_ 128 200 = GammaE.getD (200 * 128 / 255) 0 ∧
    gamma_ 255 200 = GammaE.getD 200 0 ∧
    gamma_ 0 200 = 0 :=
  gamma_correct 128 200 (by decide) (by decide)

/-- C10: the gamma lookup is total and in bounds: the computed index
`(v * b) / 255` is below the 256-entry table length for every pair of
8-bit inputs, and the returned value is a genuine table entry. -/
theorem gamma_index_in_bounds (b v : Nat) (hb : b ≤ 255) (hv : v ≤ 255) :
    v * b / 255 < GammaE.length ∧ gamma_ b v ∈ GammaE := by
  have hidx : v * b / 255 < GammaE.length := by
    rw [gammaE_length]
    have := Nat.div_le_div_right (c := 255) (Nat.mul_le_mul hv hb)
    omega
  refine ⟨hidx, ?_⟩
  unfold gamma_
  rw [List.getD_eq_getElem GammaE 0 hidx]
  exact List.getElem_mem hidx

/-- C10 witness at brightness 255 and channel 255 (the largest index). -/
theorem gamma_index_in_bounds_witness :
    255 * 255 / 255 < GammaE.length ∧ gamma_ 255 255 ∈ GammaE :=
  gamma_index_in_bounds 255 255 (by decide) (by decide)

/-- Adjacent gamma-table entries are non-decreasing. -/
lemma gammaE_adjacent : ∀ i, i < 255 → GammaE.getD i 0 ≤ GammaE.getD (i + 1) 0 := by
  decide

/-- The gamma table is monotone on its index range. -/
lemma gammaE_getD_mono : ∀ j, j ≤ 255 → ∀ i, i ≤ j →
    GammaE.getD i 0 ≤ GammaE.getD j 0 := by
  intro j
  induction j with
  | zero =>
    intro _ i hi
    have : i = 0 := Nat.le_zero.mp hi
    subst this
    exact Nat.le_refl _
  | succ j ih =>
    intro hj i hi
    rcases Nat.lt_or_ge i (j + 1) with h | h
    · exact Nat.le_trans (ih (by omega) i (by omega)) (gammaE_adjacent j (by omega))
    · have : i = j + 1 := by omega
      subst this
      exact Nat.le_refl _

/-- C8: the gamma table is monotonically non-decreasing, and for a fixed
brightness the correction is monotone in the channel value: channel
scaling by brightness preserves the table's monotonicity. -/
theorem gamma_monotone (b c c' : Nat) (hb : b ≤ 255) (hc' : c' ≤ 255)
    (hcc : c ≤ c') :
    (∀ i j, i ≤ j → j < GammaE.length → GammaE.getD i 0 ≤ GammaE.getD j 0) ∧
    gamma_ b c ≤ gamma_ b c' := by
  constructor
  · intro i j hij hj
    exact gammaE_getD_mono j (by rw [gammaE_length] at hj; omega) i hij
  · unfold gamma_
    have hidx : c * b / 255 ≤ c' * b / 255 :=
      Nat.div_le_div_right (Nat.mul_le_mul_right b hcc)
    have hidx' : c' * b / 255 ≤ 255 := by
      have := Nat.div_le_div_right (c := 255) (Nat.mul_le_mul hc' hb)
      omega
    exact gammaE_getD_mono _ hidx' _ hidx

/-- C8 witness at brightness 255, channels 10 and 250. -/
theorem gamma_monotone_witness :
    (∀ i j, i ≤ j → j < GammaE.length → GammaE.getD i 0 ≤ GammaE.getD j 0) ∧
    gamma_ 255 10 ≤ gamma_ 255 250 :=
  gamma_monotone 255 10 250 (by decide) (by decide) (by decide)

/-- Gamma of a zero channel value is zero at every brightness. -/
lemma gamma_val_zero (b : Nat) : gamma_ b 0 = 0 := by
  unfold gamma_
  simpa using gammaE_getD_zero

/-- A zero pixel encodes to twelve `0x88` bytes at every brightness. -/
lemma led_encode_zero (b : Nat) : led_encode b 0 = List.replicate 12 0x88 := by
  simp only [led_encode]
  norm_num [gamma_val_zero]
  decide

/-- Encoding `n` zero pixels yields `n * 12` bytes of `0x88`. -/
lemma flatMap_led_encode_zero (b n : Nat) :
    (List.replicate n 0).flatMap (led_encode b) = List.replicate (n * 12) 0x88 := by
  induction n with
  | zero => rfl
  | succ n ih =>
    rw [List.replicate_succ, List.flatMap_cons, ih, led_encode_zero,
      ← List.replicate_add]
    congr 1
    omega

/-- C9: the clear-all operation produces byte-for-byte the same frame
buffer contents (numLeds * 12 bytes of 0x88 then RESET_BYTES zeros) and
the same DMA transfer length as writing numLeds zero-value pixels
through the normal encode path, at any brightness. -/
theorem clear_leds_eq_encode_path (brightness numLeds : Nat) :
    clear_frame numLeds = frame brightness numLeds (List.replicate numLeds 0) ∧
    clear_frame numLeds =
      List.replicate (numLeds * 12) 0x88 ++ List.replicate RESET_BYTES 0 ∧
    clear_dma_length numLeds =
      (frame brightness numLeds (List.replicate numLeds 0)).length := by
  have hframe : frame brightness numLeds (List.replicate numLeds 0) =
      List.replicate (numLeds * 12) 0x88 ++ List.replicate RESET_BYTES 0 := by
    unfold frame
    simp only [List.length_replicate, Nat.min_self, List.take_replicate,
      flatMap_led_encode_zero]
  refine ⟨?_, ?_, ?_⟩
  · rw [hframe]
    unfold clear_frame BYTES_PER_LED
    rfl
  · rw [← hframe, hframe]
    unfold clear_frame BYTES_PER_LED
    rfl
  · rw [frame_length]
    unfold clear_dma_length BYTES_PER_LED
    simp

/-- C5 (code defect): the length `ws2812_callback` passes to
`dma_unmap_single` never equals the length that was mapped: the map
length is `accepted * 12 + RESET_BYTES` (for any accepted pixel count,
also on the `clear_leds` path) while the unmap length is
`numLeds * 12`, which omits `RESET_BYTES` and ignores the accepted
count. -/
theorem callback_unmap_length_mismatch (brightness numLeds : Nat)
    (pixels : List Nat) :
    ws2812_callback_unmap_length numLeds ≠
      (frame brightness numLeds pixels).length ∧
    ws2812_callback_unmap_length numLeds ≠ clear_dma_length numLeds := by
  rw [frame_length]
  unfold ws2812_callback_unmap_length clear_dma_length BYTES_PER_LED RESET_BYTES
  constructor <;> omega

/-- C6 (code defect): when the bus mapping succeeds but descriptor
preparation fails, `issue_dma` returns -1 with a trace holding the map
call and no unmap call: the mapping is leaked on the error path. -/
theorem issue_dma_submit_fail_leaks_mapping (length : Nat) :
    (issue_dma length true false).2 = -1 ∧
    (issue_dma length true false).1 = [DmaEvent.map length] ∧
    (∀ m, DmaEvent.unmap m ∉ (issue_dma length true false).1) := by
  refine ⟨rfl, rfl, ?_⟩
  intro m
  show DmaEvent.unmap m ∉ [DmaEvent.map length]
  simp

/-- C7 counterexample: a write of 8 bytes (two pixel words) to a device
with numLeds = 1 returns 8, not the 4 = min(8/4, 1) * 4 the claim
predicts. -/
theorem write_return_count_cex :
    (ws2812_write 255 1 8 (fun _ => 0) true true true).1 = 8 ∧
    min (8 / 4) 1 * 4 = 4 ∧ (8 : Int) ≠ 4 := by
  refine ⟨rfl, rfl, by decide⟩

/-- C7 amended: the write fails (with -EFAULT) exactly when the copy of
caller data fails, and then nothing is encoded and no DMA call is made;
otherwise it returns the full original byte count `count` — not
`accepted * 4` — encoding `min(count/4, numLeds)` pixels, and the
return value is independent of DMA mapping/submission success. -/
theorem ws2812_write_spec (brightness numLeds count : Nat) (user : Nat → Nat)
    (copyOk mapOk prepOk : Bool) :
    ((ws2812_write brightness numLeds count user copyOk mapOk prepOk).1 < 0 ↔
      copyOk = false) ∧
    ws2812_write brightness numLeds count user false mapOk prepOk =
      (-14, none, []) ∧
    (ws2812_write brightness numLeds count user true mapOk prepOk).1 =
      (count : Int) ∧
    (ws2812_write brightness numLeds count user true mapOk prepOk).2.1 =
      some (frame brightness numLeds
        ((List.range (min (count / 4) numLeds)).map user)) := by
  refine ⟨?_, rfl, rfl, rfl⟩
  cases copyOk <;> simp [ws2812_write]
